import Mathlib

/-!
Verification of the negotiation core of `app.go` (a Fabric peer-side
iterative-negotiation client).

The numeric core (`update`, `stepSize`) works on Go `float64` values.  We
embed them as exact values: a float is either a finite rational, `+Inf`,
`-Inf`, or `NaN`, and the arithmetic follows the IEEE-754 special-value
rules while keeping finite results exact (rounding and signed zero are
abstracted away; no computation in the claims depends on them).  Decimal
literals of the source (`0.5`, `0.05`, `8`) are written as the exact
rationals they denote.

The message codec (`getLambda`, `getMismatch`) is embedded at the string
level: the regex scans of the source are modelled as explicit left-to-right
scans over the character list, and `strconv.ParseFloat` as an exact decimal
parser (with over/underflow range checks).  Failure paths that end in
`log.Panic` in the source are modelled as `Except.error`.
-/

/-- A Go `float64` value, with finite values kept exact. -/
inductive GFloat where
  | fin (q : ℚ)
  | pinf
  | ninf
  | nan
deriving DecidableEq

namespace GFloat

/-- IEEE addition on the embedded floats. -/
def gadd : GFloat → GFloat → GFloat
  | nan, _ => nan
  | _, nan => nan
  | fin a, fin b => fin (a + b)
  | fin _, pinf => pinf
  | pinf, fin _ => pinf
  | fin _, ninf => ninf
  | ninf, fin _ => ninf
  | pinf, pinf => pinf
  | ninf, ninf => ninf
  | pinf, ninf => nan
  | ninf, pinf => nan

/-- IEEE negation. -/
def gneg : GFloat → GFloat
  | nan => nan
  | fin a => fin (-a)
  | pinf => ninf
  | ninf => pinf

/-- IEEE subtraction. -/
def gsub (x y : GFloat) : GFloat := gadd x (gneg y)

/-- IEEE multiplication (`Inf * 0 = NaN`). -/
def gmul : GFloat → GFloat → GFloat
  | nan, _ => nan
  | _, nan => nan
  | fin a, fin b => fin (a * b)
  | fin a, pinf => if a = 0 then nan else if 0 < a then pinf else ninf
  | pinf, fin b => if b = 0 then nan else if 0 < b then pinf else ninf
  | fin a, ninf => if a = 0 then nan else if 0 < a then ninf else pinf
  | ninf, fin b => if b = 0 then nan else if 0 < b then ninf else pinf
  | pinf, pinf => pinf
  | ninf, ninf => pinf
  | pinf, ninf => ninf
  | ninf, pinf => ninf

/-- IEEE division (`x / 0` gives a signed infinity, `0 / 0 = NaN`;
zero is treated as `+0`, which matches every division the source performs). -/
def gdiv : GFloat → GFloat → GFloat
  | nan, _ => nan
  | _, nan => nan
  | fin a, fin b =>
      if b = 0 then (if a = 0 then nan else if 0 < a then pinf else ninf)
      else fin (a / b)
  | fin _, pinf => fin 0
  | fin _, ninf => fin 0
  | pinf, fin b => if 0 ≤ b then pinf else ninf
  | ninf, fin b => if 0 ≤ b then ninf else pinf
  | pinf, pinf => nan
  | pinf, ninf => nan
  | ninf, pinf => nan
  | ninf, ninf => nan

/-- IEEE strict less-than (`NaN` compares false with everything). -/
def glt : GFloat → GFloat → Bool
  | nan, _ => false
  | _, nan => false
  | fin a, fin b => decide (a < b)
  | fin _, pinf => true
  | pinf, fin _ => false
  | fin _, ninf => false
  | ninf, fin _ => true
  | pinf, pinf => false
  | ninf, ninf => false
  | ninf, pinf => true
  | pinf, ninf => false

/-- `math.Abs`. -/
def gabs : GFloat → GFloat
  | nan => nan
  | fin a => fin |a|
  | pinf => pinf
  | ninf => pinf

end GFloat

open GFloat

/-- Lines 170-173 of `app.go`: `eta := 1 / float64(iter); if eta < 0.05 { eta = 0.05 }`. -/
def stepSize (iter : ℤ) : GFloat :=
  let eta := gdiv (GFloat.fin 1) (GFloat.fin (iter : ℚ))
  if glt eta (GFloat.fin (1/20)) then GFloat.fin (1/20) else eta

/-- Lines 169-193 of `app.go`: `update(l1, l2, m1, m2, P, iter)` returning
`(ltemp, mtemp, Ptemp, terminate)`.  The decimal literals `0.5` and `0.05`
of the source are the rationals `1/2` and `1/20` here. -/
def update (l1 l2 m1 m2 P : GFloat) (iter : ℤ) :
    GFloat × GFloat × GFloat × Bool :=
  let eta := stepSize iter
  let ltemp := gadd (gadd (gmul (GFloat.fin (1/2)) l1) (gmul (GFloat.fin (1/2)) l2)) (gmul eta m1)
  let Ptemp0 := gdiv ltemp (GFloat.fin 2)
  let Ptemp :=
    if glt (GFloat.fin 8) Ptemp0 then GFloat.fin 8
    else if glt Ptemp0 (GFloat.fin 0) then GFloat.fin 0
    else Ptemp0
  let mtemp := gsub (gadd (gadd (gmul (GFloat.fin (1/2)) m1) (gmul (GFloat.fin (1/2)) m2)) P) Ptemp
  let terminate := glt (gabs mtemp) (GFloat.fin (1/20)) && glt (gabs (gsub ltemp l1)) (GFloat.fin (1/20))
  (ltemp, mtemp, Ptemp, terminate)

/-- The spec's step-size formula `max(1/roundIndex, 0.05)` (refinement
comparison definition, written from the spec's words). -/
def specStepSize (iter : ℤ) : ℚ := max (1 / (iter : ℚ)) (1/20)

/-- The spec's `clamp(x, lo, hi)` (refinement comparison definition). -/
def clamp (lo hi x : ℚ) : ℚ := max lo (min x hi)

/-- The spec's rate update `newRate = 0.5*priorRate + 0.5*peerRate +
stepSize*priorMismatch` (refinement comparison definition). -/
def specRate (l1 l2 m1 : ℚ) (iter : ℤ) : ℚ :=
  (1/2) * l1 + (1/2) * l2 + specStepSize iter * m1

/-- The spec's decision update `newDecision = clamp(newRate/2, 0, 8)`
(refinement comparison definition). -/
def specDecision (l1 l2 m1 : ℚ) (iter : ℤ) : ℚ :=
  clamp 0 8 (specRate l1 l2 m1 iter / 2)

/-- The spec's mismatch update `newMismatch = 0.5*priorMismatch +
0.5*peerMismatch + priorDecision - newDecision` (refinement comparison
definition). -/
def specMismatch (l1 l2 m1 m2 P : ℚ) (iter : ℤ) : ℚ :=
  (1/2) * m1 + (1/2) * m2 + P - specDecision l1 l2 m1 iter

/-- The regex character class `[0-9.-]` used on lines 197 and 216 of `app.go`. -/
def numChar (c : Char) : Bool := c.isDigit || c = '.' || c = '-'

/-- One left-to-right scan of the regexp2 engine for a pattern of shape
`(?<=marker)[0-9.-]+(?=...)` (lines 197 and 216): the engine tries each start
position from the left; a position matches when the literal `marker` sits
immediately before it, a nonempty `[0-9.-]` run follows, and the lookahead
`look` accepts what follows the run.  The lookaheads used here (a comma,
and the literal `, end`) begin with a character outside `[0-9.-]`, so only
the maximal run can satisfy them and backtracking to shorter runs never
succeeds; the scan therefore only tests the maximal run. -/
def scanAfter (marker : List Char) (look : List Char → Bool) : List Char → Option (List Char)
  | [] => none
  | c :: rest =>
      let after := (c :: rest).drop marker.length
      let run := after.takeWhile numChar
      if marker.isPrefixOf (c :: rest) ∧ run ≠ [] ∧ look (after.drop run.length) then some run
      else scanAfter marker look rest

/-- Value of a digit character. -/
def digitVal (c : Char) : ℕ := c.toNat - 48

/-- Decimal value of a digit string. -/
def digitsToNat (ds : List Char) : ℕ := ds.foldl (fun a c => 10 * a + digitVal c) 0

/-- `strconv.ParseFloat(s, 64)` on a substring matched by `[0-9.-]+`:
optional leading minus, then digits with at most one decimal point and at
least one digit, exact decimal value.  Values whose magnitude rounds beyond
the largest finite float64 (at or above `2^1024 - 2^970`) or underflows to
zero (nonzero but at most `2^-1075`) make `ParseFloat` report `ErrRange`,
which the source turns into the same `log.Panic` as a syntax error, so both
are modelled as parse failure. -/
def parseGoFloat (cs : List Char) : Option ℚ :=
  let neg : Bool := decide (cs.head? = some '-')
  let body := if neg then cs.tail else cs
  let ds1 := body.takeWhile Char.isDigit
  let rest := body.drop ds1.length
  if rest = [] ∨ (rest.head? = some '.' ∧ rest.tail.all Char.isDigit) then
    let ds2 := rest.tail
    if ds1.isEmpty && ds2.isEmpty then none
    else
      let mag : ℚ := (digitsToNat ds1 : ℚ) + (digitsToNat ds2 : ℚ) / (10:ℚ) ^ ds2.length
      let q : ℚ := if neg then -mag else mag
      if (2:ℚ)^1024 - (2:ℚ)^970 ≤ |q| then none
      else if q ≠ 0 ∧ |q| ≤ 1 / (2:ℚ)^1075 then none
      else some q
  else none

/-- The lookbehind literal of the `getLambda` pattern (line 197). -/
def markerL : List Char := ("Lambda=").data

/-- The lookbehind literal of the `getMismatch` pattern (line 216). -/
def markerM : List Char := ("Mismatch=").data

/-- The `(?=,)` lookahead of the `getLambda` pattern. -/
def commaNext (l : List Char) : Bool :=
  match l with
  | ',' :: _ => true
  | _ => false

/-- The `(?=, end)` lookahead of the `getMismatch` pattern. -/
def endNext (l : List Char) : Bool := List.isPrefixOf ((", end").data) l

/-- Decode failure of the message codec.  In the source both failure modes
(no regex match, which makes `fmt.Sprintf` print a non-numeric placeholder,
and an unparsable captured substring) reach the same `log.Panic`; the panic
is modelled as an error value. -/
inductive DecodeError where
  | decodeFailed
deriving DecidableEq

/-- Lines 195-212 of `app.go`: extract the number after `Lambda=` and before
a comma, then parse it.  The `return 0` branch of the source is reachable
only when the constant regex pattern fails to compile, which never happens,
and is not modelled. -/
def getLambda (s : String) : Except DecodeError ℚ :=
  match scanAfter markerL commaNext s.data with
  | none => Except.error DecodeError.decodeFailed
  | some run =>
      match parseGoFloat run with
      | none => Except.error DecodeError.decodeFailed
      | some q => Except.ok q

/-- Lines 214-232 of `app.go`: extract the number after `Mismatch=` and
before the literal `, end`, then parse it. -/
def getMismatch (s : String) : Except DecodeError ℚ :=
  match scanAfter markerM endNext s.data with
  | none => Except.error DecodeError.decodeFailed
  | some run =>
      match parseGoFloat run with
      | none => Except.error DecodeError.decodeFailed
      | some q => Except.ok q

/-- The mutable state of the negotiation loop in `main` (lines 103-107):
`l1` (Lambda), `m1` (mismatch), `P` (decision) and the round counter. -/
structure LoopSt where
  l1 : GFloat
  m1 : GFloat
  P : GFloat
  iter : ℤ
deriving DecidableEq

/-- Lines 103-107 of `app.go`: `P = 0`, `l1 = 2*P`, `m1 = 1.5`, `iter = 0`. -/
def initState : LoopSt :=
  ⟨gmul (GFloat.fin 2) (GFloat.fin 0), GFloat.fin (3/2), GFloat.fin 0, 0⟩

/-- One iteration of the event loop of `main` (lines 108-128) on an inbound
payload: increment `iter`, decode both fields, run `update`, and report the
new state plus the terminate flag.  A decode failure reaches `log.Panic`
inside `getLambda`/`getMismatch`, which aborts the whole process (there is
no `recover` anywhere in the source); that abort is the `Except.error`
result.  The outbound `SubmitTransaction` is external and modelled as
succeeding. -/
def mainStep (st : LoopSt) (payload : String) : Except DecodeError (LoopSt × Bool) :=
  let it := st.iter + 1
  match getLambda payload with
  | Except.error e => Except.error e
  | Except.ok l2 =>
      match getMismatch payload with
      | Except.error e => Except.error e
      | Except.ok m2 =>
          let r := update st.l1 (GFloat.fin l2) st.m1 (GFloat.fin m2) st.P it
          Except.ok (⟨r.1, r.2.1, r.2.2.1, it⟩, r.2.2.2)

/-- A decimal numeral in the plain (non-exponent) form that Go's `%v` verb
uses for a float64 whose shortest representation needs no exponent:
optional minus sign, integer digits, optional fractional digits. -/
structure PlainNum where
  neg : Bool
  intDigits : List ℕ
  fracDigits : List ℕ
deriving DecidableEq

/-- Well-formed numeral: at least one integer digit, all digits below 10. -/
def PlainNum.wf (n : PlainNum) : Prop :=
  n.intDigits ≠ [] ∧ (∀ d ∈ n.intDigits, d < 10) ∧ (∀ d ∈ n.fracDigits, d < 10)

/-- The character of a digit. -/
def digitChar (d : ℕ) : Char := Char.ofNat (48 + d)

/-- The rendered text of a plain numeral. -/
def PlainNum.render (n : PlainNum) : List Char :=
  (if n.neg then ['-'] else []) ++ n.intDigits.map digitChar ++
    (if n.fracDigits = [] then [] else '.' :: n.fracDigits.map digitChar)

/-- Decimal value of a digit list. -/
def digitsVal (ds : List ℕ) : ℕ := ds.foldl (fun a d => 10 * a + d) 0

/-- The rational value a plain numeral denotes. -/
def PlainNum.val (n : PlainNum) : ℚ :=
  let mag : ℚ :=
    (digitsVal n.intDigits : ℚ) + (digitsVal n.fracDigits : ℚ) / (10:ℚ) ^ n.fracDigits.length
  if n.neg then -mag else mag

/-- The numeral's value is inside float64 range, so `ParseFloat` reports no
`ErrRange` (always true of the plain renderings `%v` actually emits). -/
def PlainNum.inRange (n : PlainNum) : Prop :=
  |n.val| < (2:ℚ)^1024 - (2:ℚ)^970 ∧ (n.val = 0 ∨ 1 / (2:ℚ)^1075 < |n.val|)

/-- Modelled from the spec: the inbound event payload shape
`Lambda=<n1>, ... Mismatch=<n2>, end` (sections 4.1 and 8 of the design;
the chaincode that assembles and emits the event payload is not part of
this repository). -/
def mkPayload (a b : List Char) : List Char :=
  ("Lambda=").data ++ a ++ (", ").data ++ ("Mismatch=").data ++ b ++ (", end").data

lemma gadd_fin (a b : ℚ) : gadd (GFloat.fin a) (GFloat.fin b) = GFloat.fin (a + b) := rfl

lemma gmul_fin (a b : ℚ) : gmul (GFloat.fin a) (GFloat.fin b) = GFloat.fin (a * b) := rfl

lemma gsub_fin (a b : ℚ) : gsub (GFloat.fin a) (GFloat.fin b) = GFloat.fin (a - b) := by
  simp [gsub, gneg, gadd, sub_eq_add_neg]

lemma gabs_fin (a : ℚ) : gabs (GFloat.fin a) = GFloat.fin |a| := rfl

lemma glt_fin (a b : ℚ) : glt (GFloat.fin a) (GFloat.fin b) = decide (a < b) := rfl

lemma gdiv_fin (a b : ℚ) (hb : b ≠ 0) :
    gdiv (GFloat.fin a) (GFloat.fin b) = GFloat.fin (a / b) := by
  simp [gdiv, hb]

lemma stepSize_eq_spec (iter : ℤ) (h : 0 < iter) :
    stepSize iter = GFloat.fin (specStepSize iter) := by
  have hq : (0:ℚ) < (iter:ℚ) := by exact_mod_cast h
  unfold stepSize specStepSize
  rw [gdiv_fin _ _ (ne_of_gt hq)]
  simp only [glt_fin, one_div]
  by_cases hlt : ((iter:ℚ)⁻¹ < 20⁻¹)
  · rw [if_pos (decide_eq_true hlt), max_eq_right hlt.le]
  · rw [if_neg (by simp [hlt]), max_eq_left (not_lt.mp hlt)]

lemma clamp_code (x : ℚ) :
    (if (8:ℚ) < x then GFloat.fin 8 else if x < 0 then GFloat.fin 0 else GFloat.fin x)
      = GFloat.fin (clamp 0 8 x) := by
  unfold clamp
  split_ifs with h1 h2
  · rw [min_eq_right (le_of_lt h1), max_eq_right (by norm_num : (0:ℚ) ≤ 8)]
  · rw [min_eq_left (by linarith), max_eq_left (le_of_lt h2)]
  · rw [min_eq_left (not_lt.mp h1), max_eq_right (not_lt.mp h2)]

lemma update_fin_eq (l1 l2 m1 m2 P : ℚ) (iter : ℤ) (h : 1 ≤ iter) :
    update (GFloat.fin l1) (GFloat.fin l2) (GFloat.fin m1) (GFloat.fin m2) (GFloat.fin P) iter
      = (GFloat.fin (specRate l1 l2 m1 iter),
         GFloat.fin (specMismatch l1 l2 m1 m2 P iter),
         GFloat.fin (specDecision l1 l2 m1 iter),
         decide (|specMismatch l1 l2 m1 m2 P iter| < 1/20) &&
           decide (|specRate l1 l2 m1 iter - l1| < 1/20)) := by
  have hstep := stepSize_eq_spec iter (by omega)
  unfold update
  rw [hstep]
  simp only [gmul_fin, gadd_fin, gsub_fin, gabs_fin, glt_fin,
    gdiv_fin _ (2:ℚ) (by norm_num), decide_eq_true_eq, clamp_code,
    specRate, specDecision, specMismatch]

lemma scanAfter_none_of_not_infix (m : List Char) (look : List Char → Bool) :
    ∀ l : List Char, ¬ m <:+: l → scanAfter m look l = none := by
  intro l
  induction l with
  | nil => intro _; rfl
  | cons c rest ih =>
      intro h
      by_cases hpre : m.isPrefixOf (c :: rest) = true
      · exact absurd (List.isPrefixOf_iff_prefix.mp hpre).isInfix h
      · rw [scanAfter, if_neg (fun hc => hpre hc.1)]
        exact ih (fun hx => h (List.infix_cons hx))

lemma digitChar_isDigit (d : ℕ) (h : d < 10) : (digitChar d).isDigit = true := by
  interval_cases d <;> rfl

lemma digitChar_numChar (d : ℕ) (h : d < 10) : numChar (digitChar d) = true := by
  interval_cases d <;> rfl

lemma digitChar_ne_minus (d : ℕ) (h : d < 10) : digitChar d ≠ '-' := by
  interval_cases d <;> decide

lemma digitChar_ne_M (d : ℕ) (h : d < 10) : digitChar d ≠ 'M' := by
  interval_cases d <;> decide

lemma digitVal_digitChar (d : ℕ) (h : d < 10) : digitVal (digitChar d) = d := by
  interval_cases d <;> rfl

lemma numChar_ne_M (c : Char) (h : numChar c = true) : c ≠ 'M' := by
  intro hc
  subst hc
  exact absurd h (by decide)

lemma takeWhile_append_all (p : Char → Bool) (xs ys : List Char)
    (h : ∀ c ∈ xs, p c = true) :
    (xs ++ ys).takeWhile p = xs ++ ys.takeWhile p := by
  induction xs with
  | nil => simp
  | cons c xs ih =>
      simp only [List.cons_append, List.takeWhile_cons, h c (by simp), if_true]
      rw [ih (fun x hx => h x (by simp [hx]))]

lemma foldl_digits (ds : List ℕ) (h : ∀ d ∈ ds, d < 10) :
    ∀ acc : ℕ, List.foldl (fun a c => 10 * a + digitVal c) acc (ds.map digitChar)
      = List.foldl (fun a d => 10 * a + d) acc ds := by
  induction ds with
  | nil => intro acc; rfl
  | cons d ds ih =>
      intro acc
      simp only [List.map_cons, List.foldl_cons]
      rw [digitVal_digitChar d (h d (by simp))]
      exact ih (fun x hx => h x (by simp [hx])) _

lemma digitsToNat_map (ds : List ℕ) (h : ∀ d ∈ ds, d < 10) :
    digitsToNat (ds.map digitChar) = digitsVal ds :=
  foldl_digits ds h 0

lemma parseGoFloat_render (n : PlainNum) (hwf : n.wf) (hr : n.inRange) :
    parseGoFloat n.render = some n.val := by
  obtain ⟨hne, hint, hfrac⟩ := hwf
  obtain ⟨d0, ds0, hds⟩ := List.exists_cons_of_ne_nil hne
  have hd0 : d0 < 10 := hint d0 (by rw [hds]; exact List.mem_cons_self _ _)
  have hIdig : ∀ c ∈ n.intDigits.map digitChar, Char.isDigit c = true := by
    intro c hc
    obtain ⟨d, hd, rfl⟩ := List.mem_map.mp hc
    exact digitChar_isDigit d (hint d hd)
  have hdotdig : ('.' : Char).isDigit = false := rfl
  set I := n.intDigits.map digitChar with hI
  set FP := (if n.fracDigits = [] then ([] : List Char)
             else '.' :: n.fracDigits.map digitChar) with hFP
  have hIcons : I = digitChar d0 :: (ds0.map digitChar) := by
    rw [hI, hds, List.map_cons]
  have htake : (I ++ FP).takeWhile Char.isDigit = I := by
    rw [takeWhile_append_all Char.isDigit I FP hIdig]
    by_cases hf : n.fracDigits = []
    · rw [hFP, if_pos hf]; simp
    · rw [hFP, if_neg hf, List.takeWhile_cons, hdotdig]; simp
  have hdrop : (I ++ FP).drop I.length = FP := List.drop_left I FP
  have hcond : (FP = [] ∨ (FP.head? = some '.' ∧ FP.tail.all Char.isDigit)) := by
    by_cases hf : n.fracDigits = []
    · left; rw [hFP, if_pos hf]
    · right
      rw [hFP, if_neg hf]
      refine ⟨rfl, ?_⟩
      rw [List.all_eq_true]
      intro c hc
      obtain ⟨d, hd, rfl⟩ := List.mem_map.mp (by simpa using hc)
      exact digitChar_isDigit d (hfrac d hd)
  have hIempty : I.isEmpty = false := by rw [hIcons]; rfl
  have hds2v : digitsToNat FP.tail = digitsVal n.fracDigits := by
    by_cases hf : n.fracDigits = []
    · rw [hFP, if_pos hf, hf]; rfl
    · rw [hFP, if_neg hf]; exact digitsToNat_map _ hfrac
  have hds2l : FP.tail.length = n.fracDigits.length := by
    by_cases hf : n.fracDigits = []
    · rw [hFP, if_pos hf, hf]; rfl
    · rw [hFP, if_neg hf]; exact List.length_map _ _
  have hIv : digitsToNat I = digitsVal n.intDigits := by
    rw [hI]; exact digitsToNat_map _ hint
  have hrange1 : ¬ ((2:ℚ)^1024 - (2:ℚ)^970 ≤ |PlainNum.val n|) := not_le.mpr hr.1
  have hrange2 : ¬ (PlainNum.val n ≠ 0 ∧ |PlainNum.val n| ≤ 1 / (2:ℚ)^1075) := by
    rcases hr.2 with hz | hgt
    · exact fun hc => hc.1 hz
    · exact fun hc => absurd hc.2 (not_le.mpr hgt)
  cases hneg : n.neg with
  | false =>
      have hrender : n.render = I ++ FP := by
        rw [PlainNum.render, hneg]
        simp only [if_false, List.nil_append, Bool.false_eq_true]
      have hval : PlainNum.val n
          = (digitsVal n.intDigits : ℚ)
            + (digitsVal n.fracDigits : ℚ) / (10:ℚ) ^ n.fracDigits.length := by
        rw [PlainNum.val, hneg]
        simp only [if_false, Bool.false_eq_true]
      have hheadflag : decide ((I ++ FP).head? = some '-') = false := by
        rw [hIcons]
        simp [digitChar_ne_minus d0 hd0]
      rw [hrender]
      unfold parseGoFloat
      simp only [hheadflag, Bool.false_eq_true, if_false, htake, hdrop, hIempty,
        Bool.false_and, if_pos hcond, hds2v, hds2l, hIv]
      rw [if_neg (hval ▸ hrange1), if_neg (hval ▸ hrange2), hval]
  | true =>
      have hrender : n.render = '-' :: (I ++ FP) := by
        rw [PlainNum.render, hneg]
        simp only [if_true, List.cons_append, List.nil_append]
      have hval : PlainNum.val n
          = -((digitsVal n.intDigits : ℚ)
            + (digitsVal n.fracDigits : ℚ) / (10:ℚ) ^ n.fracDigits.length) := by
        rw [PlainNum.val, hneg]
        simp only [if_true]
      rw [hrender]
      unfold parseGoFloat
      simp only [List.head?_cons, Option.some.injEq, decide_eq_true_eq,
        eq_self_iff_true, if_true, List.tail_cons, htake, hdrop, hIempty,
        Bool.false_and, Bool.false_eq_true, if_false, if_pos hcond,
        hds2v, hds2l, hIv]
      rw [if_neg (hval ▸ hrange1), if_neg (hval ▸ hrange2), hval]

lemma scanAfter_found (m : List Char) (c : Char) (mt rest0 run : List Char)
    (look : List Char → Bool) (hm : m = c :: mt)
    (hrun : rest0.takeWhile numChar = run) (hne : run ≠ [])
    (hlook : look (rest0.drop run.length) = true) :
    scanAfter m look (m ++ rest0) = some run := by
  subst hm
  have hafter : List.drop (c :: mt).length (c :: (mt ++ rest0)) = rest0 := by
    rw [List.length_cons, List.drop_succ_cons]
    exact List.drop_left mt rest0
  have hpre : (c :: mt).isPrefixOf (c :: (mt ++ rest0)) = true := by
    rw [List.isPrefixOf_iff_prefix]
    exact List.prefix_append (c :: mt) rest0
  show scanAfter (c :: mt) look (c :: (mt ++ rest0)) = some run
  rw [scanAfter]
  simp only [hafter, hrun]
  rw [if_pos ⟨hpre, hne, hlook⟩]

lemma scanAfter_skip (c0 : Char) (mt : List Char) (look : List Char → Bool)
    (xs ys : List Char) (h : ∀ c ∈ xs, c ≠ c0) :
    scanAfter (c0 :: mt) look (xs ++ ys) = scanAfter (c0 :: mt) look ys := by
  induction xs with
  | nil => rfl
  | cons c xs ih =>
      have hc : c ≠ c0 := h c (by simp)
      have hbeq : (c0 == c) = false := beq_eq_false_iff_ne.mpr (fun he => hc he.symm)
      have hpre : (c0 :: mt).isPrefixOf (c :: (xs ++ ys)) = false := by
        simp [List.isPrefixOf, hbeq]
      rw [List.cons_append, scanAfter,
        if_neg (fun hcond => absurd hcond.1 (by simp [hpre]))]
      exact ih (fun x hx => h x (by simp [hx]))

lemma render_numChar (n : PlainNum) (h : n.wf) : ∀ c ∈ n.render, numChar c = true := by
  obtain ⟨hne, hint, hfrac⟩ := h
  intro c hc
  rw [PlainNum.render] at hc
  simp only [List.append_assoc, List.mem_append] at hc
  rcases hc with hc | hc | hc
  · by_cases hn : n.neg = true
    · rw [if_pos hn] at hc
      rcases List.mem_singleton.mp hc with rfl
      rfl
    · rw [if_neg hn] at hc
      exact absurd hc (List.not_mem_nil c)
  · obtain ⟨d, hd, rfl⟩ := List.mem_map.mp hc
    exact digitChar_numChar d (hint d hd)
  · by_cases hf : n.fracDigits = []
    · rw [if_pos hf] at hc
      exact absurd hc (List.not_mem_nil c)
    · rw [if_neg hf] at hc
      rcases List.mem_cons.mp hc with rfl | hc2
      · rfl
      · obtain ⟨d, hd, rfl⟩ := List.mem_map.mp hc2
        exact digitChar_numChar d (hfrac d hd)

lemma render_ne_nil (n : PlainNum) (h : n.wf) : n.render ≠ [] := by
  obtain ⟨hne, hint, hfrac⟩ := h
  rw [PlainNum.render]
  intro hcontra
  rcases List.append_eq_nil.mp hcontra with ⟨h1, _⟩
  rcases List.append_eq_nil.mp h1 with ⟨_, hI⟩
  exact hne (List.map_eq_nil_iff.mp hI)

/-- C1: for every prior state `(l1, m1, P)`, peer observation `(l2, m2)` and
`roundIndex = iter ≥ 1`, `update` returns exactly the spec's formulas:
step size `max(1/iter, 0.05)`, `newRate = 0.5*l1 + 0.5*l2 + step*m1`,
`newDecision = clamp(newRate/2, 0, 8)` and
`newMismatch = 0.5*m1 + 0.5*m2 + P - newDecision`. -/
theorem update_returns_spec_formulas (l1 l2 m1 m2 P : ℚ) (iter : ℤ) (h : 1 ≤ iter) :
    stepSize iter = GFloat.fin (specStepSize iter) ∧
    update (GFloat.fin l1) (GFloat.fin l2) (GFloat.fin m1) (GFloat.fin m2) (GFloat.fin P) iter
      = (GFloat.fin (specRate l1 l2 m1 iter),
         GFloat.fin (specMismatch l1 l2 m1 m2 P iter),
         GFloat.fin (specDecision l1 l2 m1 iter),
         decide (|specMismatch l1 l2 m1 m2 P iter| < 1/20) &&
           decide (|specRate l1 l2 m1 iter - l1| < 1/20)) :=
  ⟨stepSize_eq_spec iter (by omega), update_fin_eq l1 l2 m1 m2 P iter h⟩

/-- Witness for C1: the formulas hold at the concrete input
`l1=1, l2=2, m1=3, m2=4, P=5, iter=1`, where the step size is `1` and the
outputs are `newRate = 9/2`, `newMismatch = 25/4`, `newDecision = 9/4`. -/
theorem update_returns_spec_formulas_witness :
    stepSize 1 = GFloat.fin 1 ∧
    update (GFloat.fin 1) (GFloat.fin 2) (GFloat.fin 3) (GFloat.fin 4) (GFloat.fin 5) 1
      = (GFloat.fin (9/2), GFloat.fin (25/4), GFloat.fin (9/4), false) := by
  have h := update_returns_spec_formulas 1 2 3 4 5 1 (by decide)
  norm_num [specRate, specMismatch, specDecision, specStepSize, clamp,
    max_def, min_def, abs_of_nonneg, abs_of_nonpos] at h
  exact h

/-- C2: the terminate flag returned by `update` is true iff both
`|newMismatch| < 0.05` and `|newRate - priorRate| < 0.05` hold; whenever
exactly one of the two conditions holds, terminate is false. -/
theorem terminate_iff_both_conditions (l1 l2 m1 m2 P : ℚ) (iter : ℤ) (h : 1 ≤ iter) :
    ((update (GFloat.fin l1) (GFloat.fin l2) (GFloat.fin m1) (GFloat.fin m2) (GFloat.fin P) iter).2.2.2 = true
      ↔ (|specMismatch l1 l2 m1 m2 P iter| < 1/20 ∧ |specRate l1 l2 m1 iter - l1| < 1/20)) ∧
    ((|specMismatch l1 l2 m1 m2 P iter| < 1/20 ∧ ¬ |specRate l1 l2 m1 iter - l1| < 1/20) →
      (update (GFloat.fin l1) (GFloat.fin l2) (GFloat.fin m1) (GFloat.fin m2) (GFloat.fin P) iter).2.2.2 = false) ∧
    ((¬ |specMismatch l1 l2 m1 m2 P iter| < 1/20 ∧ |specRate l1 l2 m1 iter - l1| < 1/20) →
      (update (GFloat.fin l1) (GFloat.fin l2) (GFloat.fin m1) (GFloat.fin m2) (GFloat.fin P) iter).2.2.2 = false) := by
  rw [update_fin_eq l1 l2 m1 m2 P iter h]
  refine ⟨by simp, ?_, ?_⟩ <;> intro hc <;> simp only [one_div] at hc
  · simp [not_lt.mp hc.2]
  · simp [hc.1]

/-- Witness for C2: at `l1=0, l2=2, m1=0, m2=0, P=1/2, iter=1` the mismatch
condition holds (`newMismatch = 0`) while the rate condition fails
(`|newRate - priorRate| = 1`), and terminate is false. -/
theorem terminate_iff_both_conditions_witness :
    (update (GFloat.fin 0) (GFloat.fin 2) (GFloat.fin 0) (GFloat.fin 0) (GFloat.fin (1/2)) 1).2.2.2 = false :=
  (terminate_iff_both_conditions 0 2 0 0 (1/2) 1 (by decide)).2.1
    ⟨by norm_num [specMismatch, specDecision, specRate, specStepSize, clamp, max_def, min_def],
     by norm_num [specRate, specStepSize, max_def]⟩

/-- C3: for every finite input and roundIndex ≥ 1 (the domain the spec gives
the Update Rule), the decision component returned by `update` is a finite
value in the closed interval [0, 8]. -/
theorem decision_within_bounds (l1 l2 m1 m2 P : ℚ) (iter : ℤ) (h : 1 ≤ iter) :
    ∃ d : ℚ,
      (update (GFloat.fin l1) (GFloat.fin l2) (GFloat.fin m1) (GFloat.fin m2) (GFloat.fin P) iter).2.2.1
        = GFloat.fin d ∧ 0 ≤ d ∧ d ≤ 8 := by
  refine ⟨specDecision l1 l2 m1 iter, ?_, ?_, ?_⟩
  · rw [update_fin_eq l1 l2 m1 m2 P iter h]
  · exact le_max_left _ _
  · exact max_le (by norm_num) (min_le_right _ _)

/-- Witness for C3: the decision bound holds at the concrete input
`l1=100, l2=100, m1=0, m2=0, P=0, iter=1`. -/
theorem decision_within_bounds_witness :
    ∃ d : ℚ,
      (update (GFloat.fin 100) (GFloat.fin 100) (GFloat.fin 0) (GFloat.fin 0) (GFloat.fin 0) 1).2.2.1
        = GFloat.fin d ∧ 0 ≤ d ∧ d ≤ 8 :=
  decision_within_bounds 100 100 0 0 0 1 (by decide)

/-- C8: for every roundIndex ≥ 20 the step size computed by `update` is
exactly 0.05 - the floor is reached. -/
theorem stepSize_floor_from_twenty (iter : ℤ) (h : 20 ≤ iter) :
    stepSize iter = GFloat.fin (1/20) := by
  rw [stepSize_eq_spec iter (by omega)]
  unfold specStepSize
  have h20 : (20:ℚ) ≤ (iter:ℚ) := by exact_mod_cast h
  rw [max_eq_right (one_div_le_one_div_of_le (by norm_num) h20)]

/-- Witness for C8: the floor is reached at roundIndex 20 itself. -/
theorem stepSize_floor_from_twenty_witness : stepSize 20 = GFloat.fin (1/20) :=
  stepSize_floor_from_twenty 20 (by decide)

/-- C9: Scenario 1 - with `priorRate=0, priorMismatch=1.5, priorDecision=0,
peerRate=0, peerMismatch=1.5, roundIndex=1`, the step size is 1 (no floor)
and `update` returns `newRate=1.5`, `newMismatch=0.75`, `newDecision=0.75`,
`terminate=false`. -/
theorem scenario_one_exact :
    stepSize 1 = GFloat.fin 1 ∧
    update (GFloat.fin 0) (GFloat.fin 0) (GFloat.fin (3/2)) (GFloat.fin (3/2)) (GFloat.fin 0) 1
      = (GFloat.fin (3/2), GFloat.fin (3/4), GFloat.fin (3/4), false) := by
  constructor <;>
    norm_num [update, stepSize, gdiv, gmul, gadd, gneg, gsub, gabs, glt,
      abs_of_nonneg, abs_of_nonpos]

/-- C10: a negative roundIndex is not rejected: `1/iter` is negative, the
floor branch fires, the step size is exactly 0.05, and `update` behaves on
every input exactly as it does for a large positive roundIndex such as 20. -/
theorem negative_round_index_uses_floor (iter : ℤ) (h : iter < 0) :
    stepSize iter = GFloat.fin (1/20) ∧
    ∀ l1 l2 m1 m2 P : GFloat, update l1 l2 m1 m2 P iter = update l1 l2 m1 m2 P 20 := by
  have hq : (iter:ℚ) < 0 := by exact_mod_cast h
  have hstep : stepSize iter = GFloat.fin (1/20) := by
    unfold stepSize
    rw [gdiv_fin _ _ (ne_of_lt hq)]
    simp only [glt_fin]
    have hneg : (1:ℚ)/(iter:ℚ) < 1/20 :=
      lt_trans (div_neg_of_pos_of_neg one_pos hq) (by norm_num)
    rw [if_pos (decide_eq_true hneg)]
  have h20 : stepSize 20 = GFloat.fin (1/20) := by norm_num [stepSize, gdiv, glt]
  exact ⟨hstep, fun l1 l2 m1 m2 P => by unfold update; rw [hstep, h20]⟩

/-- Witness for C10: at roundIndex -1 the step size is 0.05 and `update`
agrees with roundIndex 20 on a concrete input. -/
theorem negative_round_index_uses_floor_witness :
    stepSize (-1) = GFloat.fin (1/20) ∧
    update (GFloat.fin 1) (GFloat.fin 2) (GFloat.fin 3) (GFloat.fin 4) (GFloat.fin 5) (-1)
      = update (GFloat.fin 1) (GFloat.fin 2) (GFloat.fin 3) (GFloat.fin 4) (GFloat.fin 5) 20 :=
  ⟨(negative_round_index_uses_floor (-1) (by decide)).1,
   (negative_round_index_uses_floor (-1) (by decide)).2 _ _ _ _ _⟩

/-- C7 (evidence): calling `update` with roundIndex 0 does not fail fast:
the Go float division `1/0` yields `+Inf`, the floor branch does not fire,
and `update` computes and returns a numeric result - here
`(+Inf, -6.5, 8, false)` - instead of reporting an invalid round index. -/
theorem round_index_zero_returns_numbers :
    stepSize 0 = GFloat.pinf ∧
    update (GFloat.fin 0) (GFloat.fin 0) (GFloat.fin (3/2)) (GFloat.fin (3/2)) (GFloat.fin 0) 0
      = (GFloat.pinf, GFloat.fin (-13/2), GFloat.fin 8, false) := by
  constructor <;>
    norm_num [update, stepSize, gdiv, gmul, gadd, gneg, gsub, gabs, glt,
      abs_of_nonneg, abs_of_nonpos]

/-- C4: whenever the `Lambda=` marker (with a following numeric run ending
at a comma) is absent, or the captured substring does not parse as a
number, or the payload is empty, `getLambda` fails with a `DecodeError`
and does not return 0; likewise for `getMismatch` and its
`Mismatch=`/`, end` markers. -/
theorem codec_rejects_malformed (s : String) :
    (¬ markerL <:+: s.data →
        getLambda s = Except.error DecodeError.decodeFailed ∧ getLambda s ≠ Except.ok 0) ∧
    (∀ r, scanAfter markerL commaNext s.data = some r → parseGoFloat r = none →
        getLambda s = Except.error DecodeError.decodeFailed ∧ getLambda s ≠ Except.ok 0) ∧
    (s.data = [] →
        getLambda s = Except.error DecodeError.decodeFailed ∧
        getMismatch s = Except.error DecodeError.decodeFailed) ∧
    (¬ markerM <:+: s.data →
        getMismatch s = Except.error DecodeError.decodeFailed ∧ getMismatch s ≠ Except.ok 0) ∧
    (∀ r, scanAfter markerM endNext s.data = some r → parseGoFloat r = none →
        getMismatch s = Except.error DecodeError.decodeFailed ∧ getMismatch s ≠ Except.ok 0) := by
  refine ⟨?_, ?_, ?_, ?_, ?_⟩
  · intro h
    simp [getLambda, scanAfter_none_of_not_infix markerL commaNext s.data h]
  · intro r hr hp
    simp [getLambda, hr, hp]
  · intro h
    have h1 : scanAfter markerL commaNext s.data = none := by rw [h]; rfl
    have h2 : scanAfter markerM endNext s.data = none := by rw [h]; rfl
    simp [getLambda, getMismatch, h1, h2]
  · intro h
    simp [getMismatch, scanAfter_none_of_not_infix markerM endNext s.data h]
  · intro r hr hp
    simp [getMismatch, hr, hp]

/-- Witness for C4: the payload `garbage text with no markers` (Scenario 4
of the spec) contains no `Lambda=` marker, and `getLambda` fails on it
without returning 0. -/
theorem codec_rejects_malformed_witness :
    getLambda ("garbage text with no markers") = Except.error DecodeError.decodeFailed ∧
    getLambda ("garbage text with no markers") ≠ Except.ok 0 :=
  (codec_rejects_malformed ("garbage text with no markers")).1 (by decide)

/-- C5 (evidence): on the malformed payload of Scenario 4 the loop body of
`main` does not abandon the round and resume: the decode failure reaches
`log.Panic`, which aborts the whole process (modelled as the error result
of `mainStep`), so a single bad message halts the negotiation loop. -/
theorem malformed_payload_halts_loop :
    mainStep initState ("garbage text with no markers")
      = Except.error DecodeError.decodeFailed := rfl

/-- C6 (amended): the format-then-parse round-trip is the identity for every
value whose rendering is a plain decimal numeral (optional sign, integer
digits, optional fraction) within float64 range - the only renderings the
loop's `%v` formatter produces for which the codec's `[0-9.-]+` capture can
succeed.  For payloads `Lambda=<n1>, Mismatch=<n2>, end` built from such
renderings, `getLambda` and `getMismatch` return exactly the rendered
values. -/
theorem payload_round_trip (n1 n2 : PlainNum)
    (h1 : n1.wf) (h2 : n2.wf) (r1 : n1.inRange) (r2 : n2.inRange) :
    getLambda (String.mk (mkPayload n1.render n2.render)) = Except.ok n1.val ∧
    getMismatch (String.mk (mkPayload n1.render n2.render)) = Except.ok n2.val := by
  have hnum1 := render_numChar n1 h1
  have hnum2 := render_numChar n2 h2
  have hne1 := render_ne_nil n1 h1
  have hne2 := render_ne_nil n2 h2
  have hdata : (String.mk (mkPayload n1.render n2.render)).data
      = mkPayload n1.render n2.render := rfl
  have hassocL : mkPayload n1.render n2.render
      = markerL ++ (n1.render ++ ((", ").data ++ (markerM ++ (n2.render ++ (", end").data)))) := by
    simp [mkPayload, markerL, markerM, List.append_assoc]
  have htakeL : (n1.render ++ ((", ").data ++ (markerM ++ (n2.render ++ (", end").data)))).takeWhile numChar
      = n1.render := by
    rw [takeWhile_append_all numChar _ _ hnum1]
    have hz : ((", ").data ++ (markerM ++ (n2.render ++ (", end").data))).takeWhile numChar
        = [] := rfl
    rw [hz, List.append_nil]
  have hlookL : commaNext ((n1.render ++ ((", ").data ++ (markerM ++ (n2.render ++ (", end").data)))).drop n1.render.length) = true := by
    rw [List.drop_left]
    rfl
  have hscanL : scanAfter markerL commaNext (mkPayload n1.render n2.render)
      = some n1.render := by
    rw [hassocL]
    exact scanAfter_found markerL 'L' (("ambda=").data) _ n1.render commaNext rfl
      htakeL hne1 hlookL
  have hassocM : mkPayload n1.render n2.render
      = (markerL ++ n1.render ++ (", ").data) ++ (markerM ++ (n2.render ++ (", end").data)) := by
    simp [mkPayload, markerL, markerM, List.append_assoc]
  have hxs : ∀ c ∈ markerL ++ n1.render ++ (", ").data, c ≠ 'M' := by
    intro c hc
    simp only [List.append_assoc, List.mem_append] at hc
    rcases hc with hc | hc | hc
    · have hall : ∀ x ∈ markerL, x ≠ 'M' := by decide
      exact hall c hc
    · exact numChar_ne_M c (hnum1 c hc)
    · have hall : ∀ x ∈ (", ").data, x ≠ 'M' := by decide
      exact hall c hc
  have htakeM : (n2.render ++ (", end").data).takeWhile numChar = n2.render := by
    rw [takeWhile_append_all numChar _ _ hnum2]
    have hz : ((", end").data).takeWhile numChar = [] := rfl
    rw [hz, List.append_nil]
  have hlookM : endNext ((n2.render ++ (", end").data).drop n2.render.length) = true := by
    rw [List.drop_left]
    rfl
  have hscanM : scanAfter markerM endNext (mkPayload n1.render n2.render)
      = some n2.render := by
    rw [hassocM]
    rw [show markerM = 'M' :: ("ismatch=").data from rfl]
    rw [scanAfter_skip 'M' (("ismatch=").data) endNext _ _ hxs]
    exact scanAfter_found _ 'M' (("ismatch=").data) _ n2.render endNext rfl
      htakeM hne2 hlookM
  constructor
  · simp only [getLambda, hdata, hscanL, parseGoFloat_render n1 h1 r1]
  · simp only [getMismatch, hdata, hscanM, parseGoFloat_render n2 h2 r2]

/-- C6 (counterexample): `fmt.Sprintf` with verb `v` renders the float64
value 0.00001 as `1e-05`, a rendering the Round Loop's formatter really
produces; on the payload `Lambda=1e-05, Mismatch=1e-05, end` built from it
the codec's `[0-9.-]+` capture cannot reach the comma (it stops at `e`), so
both decoders fail instead of returning the rendered value - the
format-then-parse round-trip is not the identity on all formatter
renderings. -/
theorem exponent_rendering_breaks_round_trip :
    getLambda (String.mk (mkPayload (("1e-05").data) (("1e-05").data)))
      = Except.error DecodeError.decodeFailed ∧
    getMismatch (String.mk (mkPayload (("1e-05").data) (("1e-05").data)))
      = Except.error DecodeError.decodeFailed := by
  constructor <;> rfl

/-- Witness for the amended C6: the numerals `1.5` and `-0.25` round-trip
exactly through the codec. -/
theorem payload_round_trip_witness :
    getLambda (String.mk (mkPayload (PlainNum.render ⟨false, [1], [5]⟩)
        (PlainNum.render ⟨true, [0], [2, 5]⟩))) = Except.ok ((3:ℚ)/2) ∧
    getMismatch (String.mk (mkPayload (PlainNum.render ⟨false, [1], [5]⟩)
        (PlainNum.render ⟨true, [0], [2, 5]⟩))) = Except.ok (-(1/4) : ℚ) := by
  have v1 : digitsVal [1] = 1 := rfl
  have v5 : digitsVal [5] = 5 := rfl
  have v0 : digitsVal [0] = 0 := rfl
  have v25 : digitsVal [2, 5] = 25 := rfl
  have h := payload_round_trip ⟨false, [1], [5]⟩ ⟨true, [0], [2, 5]⟩
    (by refine ⟨by decide, ?_, ?_⟩ <;> decide)
    (by refine ⟨by decide, ?_, ?_⟩ <;> decide)
    (by norm_num [PlainNum.inRange, PlainNum.val, v1, v5, abs_of_nonneg, abs_of_nonpos, abs_neg])
    (by norm_num [PlainNum.inRange, PlainNum.val, v0, v25, abs_of_nonneg, abs_of_nonpos, abs_neg])
  norm_num [PlainNum.val, v1, v5, v0, v25] at h
  exact h
